import Mathlib

/-!
Verification of the noirlings exercise runner core against its design
specification.  The Rust source (src/exercise.rs, src/noir.rs, src/run.rs,
src/utils.rs) is shallowly embedded: file-system access and process spawning
become explicit oracle functions, panics become a distinguished `RunResult`
outcome, and the serde-driven manifest decoding is modelled over a small
value AST.
-/

/-- Outcome of a Rust computation that may `panic!` / `expect`: a panic
aborts the process and carries the panic message; `ok` is a normal return. -/
inductive RunResult (α : Type) where
  | panic (msg : String)
  | ok (val : α)
deriving DecidableEq, Repr

/-- `TomlFile` from src/exercise.rs: a circuit-input payload that is either
inline TOML text or a path to a TOML file. -/
inductive TomlFile where
  | Inlined (s : String)
  | Path (p : String)
deriving DecidableEq, Repr

/-- `TomlFile::to_string` from src/exercise.rs (lines 67-84).  File reading
is modelled by the oracle `fs`; `fs p = none` means the file at `p` cannot
be opened or read, on which the source panics (`unwrap_or_else(panic!)` /
`expect`), modelled as `RunResult.panic` with the source's message. -/
def TomlFile.to_string (fs : String → Option String) : TomlFile → RunResult String
  | .Inlined s => .ok s
  | .Path p =>
      match fs p with
      | some contents => .ok contents
      | none => .panic ("We were unable to open the toml file! " ++ p)

/-- `BbVerifyOptions` from src/exercise.rs (lines 55-59). -/
structure BbVerifyOptions where
  toml_file : TomlFile
  save_files : Bool
deriving DecidableEq, Repr

/-- `Mode` from src/exercise.rs (lines 28-53): the five exercise pipelines. -/
inductive Mode where
  | Build
  | Execute (t : TomlFile)
  | BbProve (t : TomlFile)
  | BbVerify (o : BbVerifyOptions)
  | Test
deriving DecidableEq, Repr

/-- The manifest value handed to the serde visitors: a TOML value is a bare
string, a boolean, a table (ordered key/value list), or some other shape. -/
inductive Value where
  | str (s : String)
  | boolean (b : Bool)
  | map (entries : List (String × Value))
  | other

/-- The decode errors produced by the visitors in src/exercise.rs:
`UnknownModeTag` is `de::Error::unknown_variant` in `visit_str`,
`UnknownModeField` is `de::Error::unknown_field` in `deserialize_mode`'s
`visit_map`, `UnknownPayloadField` the one in `TomlFile`'s visitor,
`MissingKey` the `custom("missing key")` error, and `InvalidShape` covers
serde's invalid-type errors for value shapes the visitors do not accept. -/
inductive DeError where
  | UnknownModeTag (got : String)
  | UnknownModeField (got : String)
  | UnknownPayloadField (got : String)
  | MissingKey
  | InvalidShape
  | MissingField (name : String)
  | DuplicateField (name : String)
deriving DecidableEq, Repr

/-- The `TomlFile` deserializer from src/exercise.rs (lines 86-123): its
`visit_map` reads the first key of the table, accepts `inlined` or `path`
with a string value, and rejects any other first key with `unknown_field`.
Entries after the first are never requested by the visitor. -/
def deTomlFile : Value → Except DeError TomlFile
  | .map [] => .error .MissingKey
  | .map ((k, v) :: _) =>
      if k = "inlined" then
        match v with
        | .str s => .ok (.Inlined s)
        | _ => .error .InvalidShape
      else if k = "path" then
        match v with
        | .str s => .ok (.Path s)
        | _ => .error .InvalidShape
      else .error (.UnknownPayloadField k)
  | _ => .error .InvalidShape

/-- The derived serde deserializer for `BbVerifyOptions`: it drains the
table, fills the two fields, errors on a duplicate or missing field, and
(serde's default) ignores unknown fields. -/
def deBbVerifyGo : List (String × Value) → Option TomlFile → Option Bool →
    Except DeError BbVerifyOptions
  | [], some t, some b => .ok ⟨t, b⟩
  | [], none, _ => .error (.MissingField "toml_file")
  | [], some _, none => .error (.MissingField "save_files")
  | (k, v) :: rest, tf, sf =>
      if k = "toml_file" then
        match tf with
        | some _ => .error (.DuplicateField k)
        | none =>
            match deTomlFile v with
            | .ok t => deBbVerifyGo rest (some t) sf
            | .error e => .error e
      else if k = "save_files" then
        match sf with
        | some _ => .error (.DuplicateField k)
        | none =>
            match v with
            | .boolean b => deBbVerifyGo rest tf (some b)
            | _ => .error .InvalidShape
      else deBbVerifyGo rest tf sf

/-- Derived deserializer entry point for `BbVerifyOptions`. -/
def deBbVerifyOptions : Value → Except DeError BbVerifyOptions
  | .map es => deBbVerifyGo es none none
  | _ => .error .InvalidShape

/-- `deserialize_mode` from src/exercise.rs (lines 127-177).  `visit_str`
accepts exactly the tags `test` and `build`; `visit_map` reads the first
key of the table and dispatches on `execute` / `bbprove` / `bbverify`,
rejecting any other first key with `unknown_field`; entries after the first
are never requested by the visitor.  Other value shapes hit the visitor's
default methods, an invalid-type error. -/
def deserialize_mode : Value → Except DeError Mode
  | .str s =>
      if s = "test" then .ok .Test
      else if s = "build" then .ok .Build
      else .error (.UnknownModeTag s)
  | .map [] => .error .MissingKey
  | .map ((k, v) :: _) =>
      if k = "execute" then (deTomlFile v).map .Execute
      else if k = "bbprove" then (deTomlFile v).map .BbProve
      else if k = "bbverify" then (deBbVerifyOptions v).map .BbVerify
      else .error (.UnknownModeField k)
  | _ => .error .InvalidShape

/-- Number of table keys recognised by `deserialize_mode`'s `visit_map`. -/
def countRecognizedModeKeys : Value → Nat
  | .map es => es.countP (fun p => p.1 = "execute" || p.1 = "bbprove" || p.1 = "bbverify")
  | _ => 0

/-! ## Completion detector (src/exercise.rs lines 13-14, 262-302)

The sentinel regex is `(?m)^\s*///?\s*I\s+AM\s+NOT\s+DONE`.  Below it is
embedded as a deterministic matcher over the line's characters; since `/`
is not whitespace and is distinct from `I`, the greedy reading of `///?`
and of each `\s*`/`\s+` coincides with the regex's backtracking search, so
the matcher accepts a line exactly when the regex matches it. -/

/-- The regex class `\s`.  The Rust regex crate defaults to Unicode mode
(the pattern sets no `(?-u)`), where `\s` is `\p{White_Space}`: U+0009 to
U+000D, U+0020, U+0085, U+00A0, U+1680, U+2000 to U+200A, U+2028, U+2029,
U+202F, U+205F and U+3000. -/
def isWs (c : Char) : Bool :=
  let n := c.toNat
  decide ((0x9 ≤ n ∧ n ≤ 0xD) ∨ n = 0x20 ∨ n = 0x85 ∨ n = 0xA0 ∨ n = 0x1680 ∨
    (0x2000 ≤ n ∧ n ≤ 0x200A) ∨ n = 0x2028 ∨ n = 0x2029 ∨ n = 0x202F ∨
    n = 0x205F ∨ n = 0x3000)

/-- Consume the literal characters `pat` from the front of `cs`. -/
def eatStr : List Char → List Char → Option (List Char)
  | [], cs => some cs
  | _ :: _, [] => none
  | p :: ps, c :: cs => if c = p then eatStr ps cs else none

/-- Consume `\s+`: at least one whitespace character, then greedily all
following whitespace (the next pattern character is never whitespace). -/
def eatWs1 : List Char → Option (List Char)
  | [] => none
  | c :: cs => if isWs c then some (cs.dropWhile isWs) else none

/-- Consume `///?`: two slashes and then, if a third follows, also that
one (taking it can never hurt, since what must follow is `\s*I` and `/` is
neither whitespace nor `I`, so this agrees with the regex's backtracking). -/
def afterSlashes : List Char → Option (List Char)
  | c1 :: c2 :: c3 :: r2 =>
      if c1 = '/' ∧ c2 = '/' then
        if c3 = '/' then some r2 else some (c3 :: r2)
      else none
  | c1 :: c2 :: [] =>
      if c1 = '/' ∧ c2 = '/' then some [] else none
  | _ => none

/-- Consume `\s*I\s+AM\s+NOT\s+DONE`; anything may follow. -/
def matchPhrase (cs : List Char) : Bool :=
  (((((((eatStr ['I'] (cs.dropWhile isWs)).bind eatWs1).bind
      (eatStr ['A', 'M'])).bind eatWs1).bind
      (eatStr ['N', 'O', 'T'])).bind eatWs1).bind
      (eatStr ['D', 'O', 'N', 'E'])).isSome

/-- Whether `I_AM_DONE_REGEX` matches the line `cs` (a line contains no
newline, so the `(?m)` anchor `^` is the start of the line). -/
def markerMatchL (cs : List Char) : Bool :=
  match afterSlashes (cs.dropWhile isWs) with
  | none => false
  | some rest => matchPhrase rest

/-- Whether the sentinel regex matches the source line `s`. -/
def markerMatch (s : String) : Bool := markerMatchL s.data

/-- The sentinel test as the specification words it, kept for comparison
with the implemented matcher: after stripping comment markers (a leading
run of line-comment punctuation) and surrounding whitespace, the line's
content equals the phrase I AM NOT DONE, compared case-insensitively. -/
def markerMatchSpec (s : String) : Bool :=
  let t := s.data.dropWhile isWs
  let t := t.dropWhile (fun c => c = '/' || c = '#' || c = '*' || c = '-' || c = ';')
  let t := t.dropWhile isWs
  let t := (t.reverse.dropWhile isWs).reverse
  t.map Char.toUpper = "I AM NOT DONE".data

/-- `AllWs cs`: every character of `cs` is whitespace. -/
def AllWs (cs : List Char) : Prop := ∀ c ∈ cs, isWs c = true

/-- `CONTEXT` from src/exercise.rs line 14. -/
def CONTEXT : Nat := 2

/-- `ContextLine` from src/exercise.rs (lines 210-218). -/
structure ContextLine where
  line : String
  number : Nat
  important : Bool
deriving DecidableEq, Repr

/-- `State` from src/exercise.rs (lines 201-207). -/
inductive State where
  | Done
  | Pending (context : List ContextLine)
deriving DecidableEq, Repr

/-- Rust's `.enumerate()` over the remaining lines, starting at index `k`. -/
def enumerateFrom : Nat → List String → List (Nat × String)
  | _, [] => []
  | k, l :: ls => (k, l) :: enumerateFrom (k + 1) ls

/-- Rust's `.enumerate().find_map(..)` over the lines: the index of the
first line the sentinel regex matches, counting from `k`. -/
def findMarkerFrom : Nat → List String → Option Nat
  | _, [] => none
  | k, l :: ls => if markerMatch l then some k else findMarkerFrom (k + 1) ls

/-- Rust's wrapping conversion of an integer into `i32`: the value of the
low 32 bits read as two's complement (4294967296 is 2^32 and 2147483648 is
2^31). -/
def wrapI32 (x : Int) : Int :=
  let r := x % 4294967296
  if r < 2147483648 then r else r - 4294967296

/-- The body of `Exercise::state` (src/exercise.rs lines 275-302) after the
source has been read and split into lines.  The source first tests the
whole text against the multiline regex and returns `Done` when it does not
match; the regex matches the text exactly when it matches some line (the
`^` anchors sit at line starts and `\s*` can only cross a newline into a
line the pattern then matches from its own start), so that early return is
the `none` case of the first-match search and the `expect` after `find_map`
is unreachable.  `min_line` follows the source's
`((matched_line_index as i32) - (CONTEXT as i32)).max(0) as usize`
literally: the index is wrapped into `i32`, the subtraction is taken with
release-build wrapping (it can only overflow when the wrapped index is
-2^31 or -2^31+1), the result is clamped at zero and, being then a
nonnegative `i32`, converts to `usize` exactly. -/
def stateOf (lines : List String) : State :=
  match findMarkerFrom 0 lines with
  | none => .Done
  | some matched_line_index =>
      let min_line : Nat :=
        (max (wrapI32 (wrapI32 (matched_line_index : Int) - (CONTEXT : Int))) 0).toNat
      let max_line := matched_line_index + CONTEXT
      .Pending (((enumerateFrom 0 lines).filter
          (fun p => decide (min_line ≤ p.1) && decide (p.1 ≤ max_line))).map
        (fun p => { line := p.2, number := p.1 + 1,
                    important := decide (p.1 = matched_line_index) }))

/-- One trailing `"\n"` or `"\r\n"` stripped, as Rust's `str::lines` does
to every segment it cut at a `'\n'`. -/
def dropTrailingCR (cs : List Char) : List Char :=
  if cs.getLast? = some '\r' then cs.dropLast else cs

/-- Rust's `str::lines`: split at `'\n'`, strip a `'\r'` before each cut,
and keep a last unterminated segment only if it is nonempty (a bare
trailing `'\r'` not followed by `'\n'` is kept). -/
def rustLinesAux (cur : List Char) : List Char → List String
  | [] => if cur = [] then [] else [String.mk cur]
  | c :: rest =>
      if c = '\n' then String.mk (dropTrailingCR cur) :: rustLinesAux [] rest
      else rustLinesAux (cur ++ [c]) rest

/-- Rust's `str::lines` over a whole source text. -/
def rustLines (s : String) : List String := rustLinesAux [] s.data

/-- `Exercise` from src/exercise.rs (lines 186-197); `PathBuf` is modelled
as the path string. -/
structure Exercise where
  name : String
  path : String
  mode : Mode
  hint : String

/-- `Exercise::state` (src/exercise.rs lines 262-302).  The oracle `fs`
models the file system: `fs path = none` means the file cannot be opened or
read, on which the source panics (`unwrap_or_else(panic!)` / `expect`). -/
def Exercise.state (fs : String → Option String) (e : Exercise) : RunResult State :=
  match fs e.path with
  | none => .panic ("We were unable to open the exercise file! " ++ e.path)
  | some source => .ok (stateOf (rustLines source))

/-- `Exercise::looks_done` (src/exercise.rs lines 310-312). -/
def Exercise.looks_done (fs : String → Option String) (e : Exercise) : RunResult Bool :=
  match e.state fs with
  | .panic msg => .panic msg
  | .ok s => .ok (decide (s = State.Done))

/-! ## External commands (src/noir.rs lines 127-182, src/run.rs lines 30-40)

A spawned command is its program name and argument list; running it yields
either a spawn error (Rust's `io::Error` from `.output()` / `.spawn()`) or
the captured outcome. -/

/-- A command line: program and arguments, as built by `Command::new` and
`.arg(..)` calls. -/
structure Cmd where
  prog : String
  args : List String
deriving DecidableEq, Repr

/-- What `.output()` captures from a finished command: whether the exit
status was success, and the standard-error text. -/
structure CmdOut where
  success : Bool
  stderr : String
deriving DecidableEq, Repr

/-- A child process handle as returned by `.spawn()`: the eventual exit
status exists but is never waited on or read by the code under study. -/
structure Child where
  exitSuccess : Bool
deriving DecidableEq, Repr

/-- `bb_prove` from src/noir.rs (lines 127-147), parametrised by the
process oracle `run`.  The result records the commands issued and the
returned `anyhow::Result`, whose error text is the `bail!` message. -/
def bb_prove (run : Cmd → Except String CmdOut) (exercise_name : String) :
    List Cmd × Except String String :=
  let cmd : Cmd :=
    ⟨"bb", ["prove",
            "-b", "runner_crate/target/runner_crate.json",
            "-w", "runner_crate/target/" ++ exercise_name ++ ".gz",
            "-o", "runner_crate/target/proof-" ++ exercise_name]⟩
  match run cmd with
  | .error e => ([cmd], .error e)
  | .ok output =>
      ([cmd],
       if output.success then .ok ""
       else .error ("Failed to prove the program: " ++ output.stderr))

/-- `bb_verify` from src/noir.rs (lines 149-182): runs `write_vk`, then
`verify`, and only afterwards inspects the two exit statuses, reporting the
first failing one. -/
def bb_verify (run : Cmd → Except String CmdOut) (exercise_name : String) :
    List Cmd × Except String String :=
  let write_vk_cmd : Cmd :=
    ⟨"bb", ["write_vk",
            "-b", "runner_crate/target/runner_crate.json",
            "-o", "runner_crate/target/vk-" ++ exercise_name]⟩
  let verify_cmd : Cmd :=
    ⟨"bb", ["verify",
            "-k", "runner_crate/target/vk-" ++ exercise_name,
            "-p", "runner_crate/target/proof-" ++ exercise_name]⟩
  match run write_vk_cmd with
  | .error e => ([write_vk_cmd], .error e)
  | .ok output_write_vk =>
      match run verify_cmd with
      | .error e => ([write_vk_cmd, verify_cmd], .error e)
      | .ok output_verify =>
          ([write_vk_cmd, verify_cmd],
           if output_write_vk.success = false then
             .error ("Failed to verify the program: " ++ output_write_vk.stderr)
           else if output_verify.success = false then
             .error ("Failed to verify the program: " ++ output_verify.stderr)
           else .ok "")

/-- `reset` from src/run.rs (lines 30-40), parametrised by the spawn
oracle.  It only pattern-matches on whether `git stash -- <path>` could be
spawned; the child's exit status is never consulted. -/
def reset (spawn : Cmd → Except String Child) (e : Exercise) : Except Unit Unit :=
  match spawn ⟨"git", ["stash", "--", e.path]⟩ with
  | .ok _ => .ok ()
  | .error _ => .error ()

/-! ## Orchestrators (src/utils.rs lines 41-85)

Each step's `anyhow::Result` is supplied as data; the trace component lists
the steps in the order the function body evaluates them.  The error string
of the outcome is the diagnostic text the function prints for the failure
it reports. -/

/-- The pipeline steps an orchestrator can invoke. -/
inductive StepTag where
  | execute
  | prove
  | proveVerify
deriving DecidableEq, Repr

/-- `bb_prove_exercise` from src/utils.rs (lines 41-62): the source binds
`exercise.execute(..)` and then `exercise.create_proof()` as two
unconditional `let` statements, so both steps run before any error is
inspected; the reported outcome then gives the execute error priority. -/
def bb_prove_exercise (executeRes proveRes : Except String String) :
    List StepTag × Except String String :=
  ([StepTag.execute, StepTag.prove],
   match executeRes with
   | .error e => .error e
   | .ok out =>
       match proveRes with
       | .error e => .error e
       | .ok _ => .ok out)

/-- `bb_prove_verify_exercise` from src/utils.rs (lines 64-85): the source
binds `exercise.execute(..)` and then `exercise.prove_verify_proof(..)` as
two unconditional `let` statements, so both steps run before any error is
inspected; the reported outcome then gives the execute error priority. -/
def bb_prove_verify_exercise (executeRes proveVerifyRes : Except String String) :
    List StepTag × Except String String :=
  ([StepTag.execute, StepTag.proveVerify],
   match executeRes with
   | .error e => .error e
   | .ok out =>
       match proveVerifyRes with
       | .error e => .error e
       | .ok _ => .ok out)

/-! ## Theorems -/

lemma findMarkerFrom_first (lines : List String) :
    ∀ (m k : Nat) (hm : m < lines.length),
      markerMatch (lines.get ⟨m, hm⟩) = true →
      (∀ i (hi : i < lines.length), i < m → markerMatch (lines.get ⟨i, hi⟩) = false) →
      findMarkerFrom k lines = some (k + m) := by
  induction lines with
  | nil => intro m k hm; exact absurd hm (Nat.not_lt_zero m)
  | cons a t ih =>
      intro m k hm hmark hbefore
      cases m with
      | zero =>
          have ha : markerMatch a = true := hmark
          simp [findMarkerFrom, ha]
      | succ j =>
          have ha : markerMatch a = false := hbefore 0 (Nat.succ_pos _) (Nat.succ_pos j)
          have hrec := ih j (k + 1) (Nat.lt_of_succ_lt_succ hm) hmark
              (fun i hi hij => hbefore (i + 1) (Nat.succ_lt_succ hi) (Nat.succ_lt_succ hij))
          simp only [findMarkerFrom, ha, Bool.false_eq_true, if_false, hrec]
          congr 1
          omega

lemma enumerateFrom_eq (lines : List String) :
    ∀ k, enumerateFrom k lines
      = (List.range lines.length).map (fun i => (k + i, lines.getD i "")) := by
  induction lines with
  | nil => intro k; rfl
  | cons a t ih =>
      intro k
      rw [List.length_cons, List.range_succ_eq_map, List.map_cons, List.map_map]
      show (k, a) :: enumerateFrom (k + 1) t = _
      rw [ih (k + 1)]
      refine congrArg₂ List.cons (by simp) ?_
      refine List.map_congr_left (fun i _ => ?_)
      simp only [Function.comp_apply, List.getD_cons_succ, Prod.mk.injEq]
      exact ⟨by omega, trivial⟩

lemma filter_map_swap {α β : Type} (f : α → β) (p : β → Bool) :
    ∀ l : List α, (l.map f).filter p = (l.filter (fun a => p (f a))).map f := by
  intro l
  induction l with
  | nil => rfl
  | cons a t ih =>
      by_cases h : p (f a) = true
      · simp [List.filter_cons, h, ih]
      · simp only [Bool.not_eq_true] at h
        simp [List.filter_cons, h, ih]

lemma range_filter_eq_single (L m : Nat) (hm : m < L) :
    (List.range L).filter (fun i => decide (i = m)) = [m] := by
  induction L with
  | zero => omega
  | succ n ih =>
      rw [List.range_succ, List.filter_append]
      by_cases h : m < n
      · rw [ih h]
        have hn : List.filter (fun i => decide (i = m)) [n] = [] := by
          simp only [List.filter_cons, List.filter_nil, decide_eq_true_eq]
          rw [if_neg (by omega)]
        rw [hn, List.append_nil]
      · have hmn : m = n := by omega
        subst hmn
        have h0 : (List.range m).filter (fun i => decide (i = m)) = [] := by
          rw [List.filter_eq_nil_iff]
          intro a ha
          rw [List.mem_range] at ha
          simp only [decide_eq_true_eq]
          omega
        simp [h0]

lemma bool_and_congr {p q r s : Prop} [Decidable p] [Decidable q] [Decidable r] [Decidable s]
    (h1 : p ↔ r) (h2 : q ↔ s) : (decide p && decide q) = (decide r && decide s) := by
  rw [decide_eq_decide.mpr h1, decide_eq_decide.mpr h2]

lemma wrapI32_of_small {x : Int} (h0 : -2147483648 ≤ x) (h1 : x < 2147483648) :
    wrapI32 x = x := by
  unfold wrapI32
  by_cases hx : 0 ≤ x
  · rw [Int.emod_eq_of_lt hx (by omega), if_pos h1]
  · have hmod : x % 4294967296 = x + 4294967296 := by omega
    rw [hmod, if_neg (by omega)]
    omega

lemma min_line_eq (m : Nat) (hsmall : m < 2147483648) :
    (max (wrapI32 (wrapI32 (m : Int) - (CONTEXT : Int))) 0).toNat = m - CONTEXT := by
  have h1 : wrapI32 (m : Int) = (m : Int) := wrapI32_of_small (by omega) (by omega)
  have h2 : wrapI32 ((m : Int) - (CONTEXT : Int)) = (m : Int) - (CONTEXT : Int) := by
    apply wrapI32_of_small
    · unfold CONTEXT; omega
    · unfold CONTEXT; omega
  rw [h1, h2]
  unfold CONTEXT
  omega

lemma stateOf_eq_of_find (lines : List String) (m : Nat)
    (hfind : findMarkerFrom 0 lines = some m) :
    stateOf lines = State.Pending
      (((enumerateFrom 0 lines).filter
          (fun p => decide ((max (wrapI32 (wrapI32 (m : Int) - (CONTEXT : Int))) 0).toNat ≤ p.1)
                    && decide (p.1 ≤ m + CONTEXT))).map
        (fun p => { line := p.2, number := p.1 + 1, important := decide (p.1 = m) })) := by
  unfold stateOf
  rw [hfind]

lemma findMarkerFrom_replicate_append {a : String} (ha : markerMatch a = false)
    (rest : List String) : ∀ n k, findMarkerFrom k (List.replicate n a ++ rest)
      = findMarkerFrom (k + n) rest := by
  intro n
  induction n with
  | zero => intro k; simp
  | succ j ih =>
      intro k
      rw [List.replicate_succ, List.cons_append]
      simp only [findMarkerFrom, ha, Bool.false_eq_true, if_false]
      rw [ih (k + 1)]
      congr 1
      omega

lemma eatStr_eq_some {pat : List Char} :
    ∀ {cs r : List Char}, eatStr pat cs = some r → cs = pat ++ r := by
  induction pat with
  | nil =>
      intro cs r h
      obtain rfl : cs = r := by simpa [eatStr] using h
      rfl
  | cons p ps ih =>
      intro cs r h
      cases cs with
      | nil => simp [eatStr] at h
      | cons c cs' =>
          simp only [eatStr] at h
          by_cases hc : c = p
          · subst hc
            rw [if_pos rfl] at h
            simpa using ih h
          · rw [if_neg hc] at h
            cases h

lemma eatWs1_eq_some {cs r : List Char} (h : eatWs1 cs = some r) :
    ∃ w, cs = w ++ r ∧ w ≠ [] ∧ AllWs w := by
  cases cs with
  | nil => simp [eatWs1] at h
  | cons c cs' =>
      simp only [eatWs1] at h
      by_cases hc : isWs c = true
      · rw [if_pos hc] at h
        obtain rfl : cs'.dropWhile isWs = r := by simpa using h
        refine ⟨c :: cs'.takeWhile isWs, ?_, by simp, ?_⟩
        · simp [List.takeWhile_append_dropWhile]
        · intro x hx
          rcases List.mem_cons.mp hx with rfl | hx
          · exact hc
          · exact List.mem_takeWhile_imp hx
      · rw [if_neg hc] at h
        cases h

lemma dropWhile_append_allWs {w : List Char} (hw : AllWs w) (x : List Char) :
    (w ++ x).dropWhile isWs = x.dropWhile isWs := by
  induction w with
  | nil => rfl
  | cons c w' ih =>
      have hc : isWs c = true := hw c (List.mem_cons_self _ _)
      simp only [List.cons_append, List.dropWhile_cons, hc, if_true]
      exact ih (fun a ha => hw a (List.mem_cons_of_mem _ ha))

lemma dropWhile_cons_neg {c : Char} (hc : isWs c = false) (x : List Char) :
    (c :: x).dropWhile isWs = c :: x := by
  simp [List.dropWhile_cons, hc]

lemma eatWs1_append {w x : List Char} (hw : AllWs w) (hne : w ≠ [])
    (hx : x.dropWhile isWs = x) : eatWs1 (w ++ x) = some x := by
  cases w with
  | nil => exact absurd rfl hne
  | cons c w' =>
      have hc : isWs c = true := hw c (List.mem_cons_self _ _)
      simp only [List.cons_append, eatWs1, hc, if_true]
      rw [dropWhile_append_allWs (fun a ha => hw a (List.mem_cons_of_mem _ ha)), hx]

lemma eatStr_I (r : List Char) : eatStr ['I'] ('I' :: r) = some r := by
  simp [eatStr]

lemma eatStr_AM (r : List Char) : eatStr ['A', 'M'] ('A' :: 'M' :: r) = some r := by
  simp [eatStr]

lemma eatStr_NOT (r : List Char) : eatStr ['N', 'O', 'T'] ('N' :: 'O' :: 'T' :: r) = some r := by
  simp [eatStr]

lemma eatStr_DONE (r : List Char) :
    eatStr ['D', 'O', 'N', 'E'] ('D' :: 'O' :: 'N' :: 'E' :: r) = some r := by
  simp [eatStr]

lemma afterSlashes_eq_some : ∀ {cs r : List Char}, afterSlashes cs = some r →
    ∃ opt, cs = ['/', '/'] ++ opt ++ r ∧ (opt = [] ∨ opt = ['/']) := by
  intro cs r h
  rcases cs with _ | ⟨c1, _ | ⟨c2, _ | ⟨c3, r2⟩⟩⟩
  · simp [afterSlashes] at h
  · simp [afterSlashes] at h
  · simp only [afterSlashes] at h
    by_cases h12 : c1 = '/' ∧ c2 = '/'
    · obtain ⟨rfl, rfl⟩ := h12
      rw [if_pos ⟨rfl, rfl⟩] at h
      have hr : ([] : List Char) = r := by injection h
      exact ⟨[], by rw [← hr]; simp, Or.inl rfl⟩
    · rw [if_neg h12] at h
      cases h
  · simp only [afterSlashes] at h
    by_cases h12 : c1 = '/' ∧ c2 = '/'
    · obtain ⟨rfl, rfl⟩ := h12
      rw [if_pos ⟨rfl, rfl⟩] at h
      by_cases h3 : c3 = '/'
      · subst h3
        rw [if_pos rfl] at h
        have hr : r2 = r := by injection h
        exact ⟨['/'], by rw [← hr]; simp, Or.inr rfl⟩
      · rw [if_neg h3] at h
        have hr : c3 :: r2 = r := by injection h
        exact ⟨[], by rw [← hr]; simp, Or.inl rfl⟩
    · rw [if_neg h12] at h
      cases h

lemma afterSlashes_no_third {c : Char} (x : List Char) (hc : c ≠ '/') :
    afterSlashes ('/' :: '/' :: c :: x) = some (c :: x) := by
  simp [afterSlashes, hc]

lemma afterSlashes_third (x : List Char) :
    afterSlashes ('/' :: '/' :: '/' :: x) = some x := by
  simp [afterSlashes]

lemma matchPhrase_eq_true {cs : List Char} (h : matchPhrase cs = true) :
    ∃ ws1 g1 g2 g3 tail,
      cs = ws1 ++ 'I' :: (g1 ++ 'A' :: 'M' :: (g2 ++ 'N' :: 'O' :: 'T' ::
          (g3 ++ 'D' :: 'O' :: 'N' :: 'E' :: tail)))
      ∧ AllWs ws1 ∧ g1 ≠ [] ∧ AllWs g1 ∧ g2 ≠ [] ∧ AllWs g2 ∧ g3 ≠ [] ∧ AllWs g3 := by
  unfold matchPhrase at h
  cases e1 : eatStr ['I'] (cs.dropWhile isWs) with
  | none => rw [e1] at h; simp at h
  | some r1 =>
  rw [e1] at h
  simp only [Option.some_bind] at h
  cases e2 : eatWs1 r1 with
  | none => rw [e2] at h; simp at h
  | some r2 =>
  rw [e2] at h
  simp only [Option.some_bind] at h
  cases e3 : eatStr ['A', 'M'] r2 with
  | none => rw [e3] at h; simp at h
  | some r3 =>
  rw [e3] at h
  simp only [Option.some_bind] at h
  cases e4 : eatWs1 r3 with
  | none => rw [e4] at h; simp at h
  | some r4 =>
  rw [e4] at h
  simp only [Option.some_bind] at h
  cases e5 : eatStr ['N', 'O', 'T'] r4 with
  | none => rw [e5] at h; simp at h
  | some r5 =>
  rw [e5] at h
  simp only [Option.some_bind] at h
  cases e6 : eatWs1 r5 with
  | none => rw [e6] at h; simp at h
  | some r6 =>
  rw [e6] at h
  simp only [Option.some_bind] at h
  cases e7 : eatStr ['D', 'O', 'N', 'E'] r6 with
  | none => rw [e7] at h; simp at h
  | some tail =>
  have hd1 : cs.dropWhile isWs = 'I' :: r1 := by simpa using eatStr_eq_some e1
  obtain ⟨g1, hr1, hg1ne, hg1⟩ := eatWs1_eq_some e2
  have hr2 : r2 = 'A' :: 'M' :: r3 := by simpa using eatStr_eq_some e3
  obtain ⟨g2, hr3, hg2ne, hg2⟩ := eatWs1_eq_some e4
  have hr4 : r4 = 'N' :: 'O' :: 'T' :: r5 := by simpa using eatStr_eq_some e5
  obtain ⟨g3, hr5, hg3ne, hg3⟩ := eatWs1_eq_some e6
  have hr6 : r6 = 'D' :: 'O' :: 'N' :: 'E' :: tail := by simpa using eatStr_eq_some e7
  refine ⟨cs.takeWhile isWs, g1, g2, g3, tail, ?_,
    fun a ha => List.mem_takeWhile_imp ha, hg1ne, hg1, hg2ne, hg2, hg3ne, hg3⟩
  conv_lhs => rw [← List.takeWhile_append_dropWhile (p := isWs) (l := cs)]
  rw [hd1, hr1, hr2, hr3, hr4, hr5, hr6]

lemma matchPhrase_of_parts (ws1 g1 g2 g3 tail : List Char) (hws1 : AllWs ws1)
    (h1 : g1 ≠ []) (ha1 : AllWs g1) (h2 : g2 ≠ []) (ha2 : AllWs g2)
    (h3 : g3 ≠ []) (ha3 : AllWs g3) :
    matchPhrase (ws1 ++ 'I' :: (g1 ++ 'A' :: 'M' :: (g2 ++ 'N' :: 'O' :: 'T' ::
        (g3 ++ 'D' :: 'O' :: 'N' :: 'E' :: tail)))) = true := by
  unfold matchPhrase
  rw [dropWhile_append_allWs hws1,
      dropWhile_cons_neg (show isWs 'I' = false by decide),
      eatStr_I, Option.some_bind,
      eatWs1_append ha1 h1 (dropWhile_cons_neg (show isWs 'A' = false by decide) _),
      Option.some_bind, eatStr_AM, Option.some_bind,
      eatWs1_append ha2 h2 (dropWhile_cons_neg (show isWs 'N' = false by decide) _),
      Option.some_bind, eatStr_NOT, Option.some_bind,
      eatWs1_append ha3 h3 (dropWhile_cons_neg (show isWs 'D' = false by decide) _),
      Option.some_bind, eatStr_DONE]
  rfl

/-- C2 (counterexample): the spec-worded sentinel test and the implemented
matcher disagree on three concrete lines — a lowercase phrase (the regex is
case-sensitive), a hash-marked comment (the regex accepts only slash
comments), and a matching prefix with trailing words (the regex does not
require the content to equal the phrase). -/
theorem marker_line_spec_counterexample :
    (markerMatchSpec "// i am not done" = true ∧ markerMatch "// i am not done" = false)
    ∧ (markerMatchSpec "# I AM NOT DONE" = true ∧ markerMatch "# I AM NOT DONE" = false)
    ∧ (markerMatchSpec "// I AM NOT DONE now" = false
        ∧ markerMatch "// I AM NOT DONE now" = true) := by
  refine ⟨⟨by decide, by decide⟩, ⟨by decide, by decide⟩, ⟨by decide, by decide⟩⟩

/-- C2 (amended): the detector flags a source line exactly when the line is
optional whitespace, then two or three slashes, then optional whitespace,
then the uppercase words I AM NOT DONE separated by runs of whitespace,
followed by arbitrary trailing content — i.e. the match is case-sensitive,
accepts only slash-style comment markers, and is a prefix match rather than
an equality with the phrase. -/
theorem marker_line_characterization (s : String) :
    markerMatch s = true ↔ ∃ ws0 opt ws1 g1 g2 g3 tail : List Char,
      s.data = ws0 ++ ['/', '/'] ++ opt ++ ws1 ++ ['I'] ++ g1 ++ ['A', 'M'] ++ g2
          ++ ['N', 'O', 'T'] ++ g3 ++ ['D', 'O', 'N', 'E'] ++ tail
      ∧ AllWs ws0 ∧ (opt = [] ∨ opt = ['/']) ∧ AllWs ws1
      ∧ g1 ≠ [] ∧ AllWs g1 ∧ g2 ≠ [] ∧ AllWs g2 ∧ g3 ≠ [] ∧ AllWs g3 := by
  constructor
  · intro h
    unfold markerMatch markerMatchL at h
    cases hals : afterSlashes (s.data.dropWhile isWs) with
    | none => rw [hals] at h; exact absurd h (by simp)
    | some rest =>
        rw [hals] at h
        obtain ⟨opt, hdecomp, hopt⟩ := afterSlashes_eq_some hals
        obtain ⟨ws1, g1, g2, g3, tail, hrest, hws1, h1, ha1, h2, ha2, h3, ha3⟩ :=
          matchPhrase_eq_true h
        refine ⟨s.data.takeWhile isWs, opt, ws1, g1, g2, g3, tail, ?_,
          fun a ha => List.mem_takeWhile_imp ha, hopt, hws1, h1, ha1, h2, ha2, h3, ha3⟩
        conv_lhs => rw [← List.takeWhile_append_dropWhile (p := isWs) (l := s.data)]
        rw [hdecomp, hrest]
        simp [List.append_assoc]
  · rintro ⟨ws0, opt, ws1, g1, g2, g3, tail, hdec, hws0, hopt, hws1, h1, ha1, h2, ha2, h3, ha3⟩
    have hPh : matchPhrase (ws1 ++ 'I' :: (g1 ++ 'A' :: 'M' :: (g2 ++ 'N' :: 'O' :: 'T' ::
        (g3 ++ 'D' :: 'O' :: 'N' :: 'E' :: tail)))) = true :=
      matchPhrase_of_parts ws1 g1 g2 g3 tail hws1 h1 ha1 h2 ha2 h3 ha3
    have hals : afterSlashes (s.data.dropWhile isWs)
        = some (ws1 ++ 'I' :: (g1 ++ 'A' :: 'M' :: (g2 ++ 'N' :: 'O' :: 'T' ::
            (g3 ++ 'D' :: 'O' :: 'N' :: 'E' :: tail)))) := by
      rw [hdec]
      simp only [List.append_assoc, List.cons_append, List.singleton_append, List.nil_append]
      rw [dropWhile_append_allWs hws0,
          dropWhile_cons_neg (show isWs '/' = false by decide)]
      rcases hopt with rfl | rfl
      · cases ws1 with
        | nil => simpa using afterSlashes_no_third _ (show 'I' ≠ '/' by decide)
        | cons c ws1t =>
            have hc : c ≠ '/' := by
              intro hceq
              have := hws1 c (List.mem_cons_self _ _)
              rw [hceq] at this
              exact absurd this (by decide)
            simpa using afterSlashes_no_third _ hc
      · simpa using afterSlashes_third _
    unfold markerMatch markerMatchL
    rw [hals]
    exact hPh

/-- C2 (witness): the canonical marker line is flagged, through the
characterization instantiated at its decomposition. -/
theorem marker_line_characterization_witness :
    markerMatch "// I AM NOT DONE" = true :=
  (marker_line_characterization "// I AM NOT DONE").mpr
    ⟨[], [], [' '], [' '], [' '], [' '], [], by decide, by unfold AllWs; decide,
     Or.inl rfl, by unfold AllWs; decide, by decide, by unfold AllWs; decide,
     by decide, by unfold AllWs; decide, by decide, by unfold AllWs; decide⟩

/-- C4 (amended): for a source whose only sentinel line sits at zero-based
index m, with m below 2^31 — so that the source's cast of the index into a
32-bit signed integer is value-preserving — the detector returns Pending
whose context is exactly the lines with indices from max(0, m-2) to
min(L-1, m+2) in order, each with 1-based line number index+1, and exactly
one context line — the one numbered m+1 — is flagged as the marker line.
At indexes from 2^31 up the cast wraps and the window start degenerates
(see the counterexample). -/
theorem state_pending_window (lines : List String) (m : Nat) (hm : m < lines.length)
    (hsmall : m < 2147483648)
    (hmark : markerMatch (lines.get ⟨m, hm⟩) = true)
    (honly : ∀ i (hi : i < lines.length), i ≠ m → markerMatch (lines.get ⟨i, hi⟩) = false) :
    ∃ ctx, stateOf lines = State.Pending ctx
      ∧ ctx = ((List.range lines.length).filter
            (fun i => decide (max 0 (m - CONTEXT) ≤ i)
                      && decide (i ≤ min (lines.length - 1) (m + CONTEXT)))).map
          (fun i => { line := lines.getD i "", number := i + 1, important := decide (i = m) })
      ∧ (ctx.filter (fun c => c.important)).map ContextLine.number = [m + 1] := by
  have hfind : findMarkerFrom 0 lines = some m := by
    simpa using findMarkerFrom_first lines m 0 hm hmark
      (fun i hi hilt => honly i hi (by omega))
  have henum : enumerateFrom 0 lines
      = (List.range lines.length).map (fun i => (i, lines.getD i "")) := by
    rw [enumerateFrom_eq lines 0]
    exact List.map_congr_left (fun i _ => by simp)
  have hfiltcongr : (List.range lines.length).filter
        (fun i => decide (m - CONTEXT ≤ i) && decide (i ≤ m + CONTEXT))
      = (List.range lines.length).filter
        (fun i => decide (max 0 (m - CONTEXT) ≤ i)
                  && decide (i ≤ min (lines.length - 1) (m + CONTEXT))) := by
    refine List.filter_congr (fun i hi => ?_)
    rw [List.mem_range] at hi
    exact bool_and_congr (by omega) (by omega)
  have hstep0 := stateOf_eq_of_find lines m hfind
  have hstep : stateOf lines = State.Pending
      (((enumerateFrom 0 lines).filter
          (fun p => decide (m - CONTEXT ≤ p.1) && decide (p.1 ≤ m + CONTEXT))).map
        (fun p => { line := p.2, number := p.1 + 1, important := decide (p.1 = m) })) := by
    rw [hstep0, min_line_eq m hsmall]
  have hstate : stateOf lines = State.Pending
      (((List.range lines.length).filter
          (fun i => decide (max 0 (m - CONTEXT) ≤ i)
                    && decide (i ≤ min (lines.length - 1) (m + CONTEXT)))).map
        (fun i => { line := lines.getD i "", number := i + 1,
                    important := decide (i = m) })) := by
    rw [hstep, henum, filter_map_swap, List.map_map, hfiltcongr]
    rfl
  refine ⟨_, hstate, rfl, ?_⟩
  rw [filter_map_swap]
  have hsel : ((List.range lines.length).filter
        (fun i => decide (max 0 (m - CONTEXT) ≤ i)
                  && decide (i ≤ min (lines.length - 1) (m + CONTEXT)))).filter
        (fun i => (({ line := lines.getD i "", number := i + 1,
                      important := decide (i = m) } : ContextLine)).important)
      = [m] := by
    rw [List.filter_filter]
    have : (List.range lines.length).filter
          (fun i => decide (i = m)
            && (decide (max 0 (m - CONTEXT) ≤ i)
                && decide (i ≤ min (lines.length - 1) (m + CONTEXT))))
        = (List.range lines.length).filter (fun i => decide (i = m)) := by
      refine List.filter_congr (fun i hi => ?_)
      rw [List.mem_range] at hi
      by_cases him : i = m
      · subst him
        have h1 : max 0 (i - CONTEXT) ≤ i := by omega
        have h2 : i ≤ min (lines.length - 1) (i + CONTEXT) := by omega
        simp [h1, h2]
      · simp [him]
    rw [this]
    exact range_filter_eq_single lines.length m hm
  rw [hsel]
  rfl

/-- C4 (witness): a concrete five-line source with its only marker at
zero-based index 2 yields the claimed window, numbering and single flag. -/
theorem state_pending_window_witness :
    ∃ ctx, stateOf ["a", "b", "// I AM NOT DONE", "d", "e", "f"] = State.Pending ctx
      ∧ ctx = ((List.range (["a", "b", "// I AM NOT DONE", "d", "e", "f"] : List String).length).filter
            (fun i => decide (max 0 (2 - CONTEXT) ≤ i)
                      && decide (i ≤ min ((["a", "b", "// I AM NOT DONE", "d", "e", "f"] : List String).length - 1) (2 + CONTEXT)))).map
          (fun i => { line := (["a", "b", "// I AM NOT DONE", "d", "e", "f"] : List String).getD i "",
                      number := i + 1, important := decide (i = 2) })
      ∧ (ctx.filter (fun c => c.important)).map ContextLine.number = [2 + 1] :=
  state_pending_window ["a", "b", "// I AM NOT DONE", "d", "e", "f"] 2 (by decide)
    (by decide) (by decide) (by decide)

/-- C4 (counterexample): a source of 2^31+5 lines whose only marker sits at
zero-based index 2^31+2 refutes the claimed window: the source casts the
index into i32, which wraps negative there, so min_line is clamped to 0 and
the program's context covers every line from the top of the file — in
particular the context contains the line numbered 1, which the claimed
window max(0, m-2)..min(L-1, m+2) excludes.  The subtraction does not
overflow at this index, so debug and release builds agree. -/
theorem state_pending_window_counterexample :
    stateOf (List.replicate 2147483650 "" ++ ["// I AM NOT DONE", "", ""])
      ≠ State.Pending
        (((List.range (List.replicate 2147483650 ""
              ++ ["// I AM NOT DONE", "", ""]).length).filter
            (fun i => decide (max 0 (2147483650 - CONTEXT) ≤ i)
                      && decide (i ≤ min ((List.replicate 2147483650 ""
                            ++ ["// I AM NOT DONE", "", ""]).length - 1)
                          (2147483650 + CONTEXT)))).map
          (fun i => { line := (List.replicate 2147483650 ""
                        ++ ["// I AM NOT DONE", "", ""]).getD i "",
                      number := i + 1, important := decide (i = 2147483650) })) := by
  intro hcontra
  have hlen : (List.replicate 2147483650 "" ++ ["// I AM NOT DONE", "", ""]).length
      = 2147483653 := by
    rw [List.length_append, List.length_replicate]
    rfl
  have hmm : markerMatch "// I AM NOT DONE" = true := by decide
  have hfind : findMarkerFrom 0 (List.replicate 2147483650 "" ++ ["// I AM NOT DONE", "", ""])
      = some 2147483650 := by
    rw [findMarkerFrom_replicate_append (by decide) _ 2147483650 0]
    simp [findMarkerFrom, hmm]
  have hstep := stateOf_eq_of_find
    (List.replicate 2147483650 "" ++ ["// I AM NOT DONE", "", ""]) 2147483650 hfind
  have hmin : (max (wrapI32 (wrapI32 ((2147483650 : Nat) : Int) - (CONTEXT : Int))) 0).toNat
      = 0 := by
    decide
  have hself : (enumerateFrom 0 (List.replicate 2147483650 ""
        ++ ["// I AM NOT DONE", "", ""])).filter
        (fun p => decide ((0 : Nat) ≤ p.1) && decide (p.1 ≤ 2147483650 + CONTEXT))
      = enumerateFrom 0 (List.replicate 2147483650 "" ++ ["// I AM NOT DONE", "", ""]) := by
    rw [List.filter_eq_self]
    intro p hp
    rw [enumerateFrom_eq] at hp
    obtain ⟨i, hi, rfl⟩ := List.mem_map.mp hp
    rw [List.mem_range, hlen] at hi
    simp only [Bool.and_eq_true, decide_eq_true_eq]
    unfold CONTEXT
    omega
  have hactual : stateOf (List.replicate 2147483650 "" ++ ["// I AM NOT DONE", "", ""])
      = State.Pending
        ((enumerateFrom 0 (List.replicate 2147483650 "" ++ ["// I AM NOT DONE", "", ""])).map
          (fun p => { line := p.2, number := p.1 + 1,
                      important := decide (p.1 = 2147483650) })) := by
    rw [hstep, hmin, hself]
  have hpair : ((0 + 0 : Nat), (List.replicate 2147483650 ""
        ++ ["// I AM NOT DONE", "", ""]).getD 0 "")
      ∈ enumerateFrom 0 (List.replicate 2147483650 "" ++ ["// I AM NOT DONE", "", ""]) := by
    rw [enumerateFrom_eq]
    exact List.mem_map.mpr ⟨0, List.mem_range.mpr (by rw [hlen]; omega), rfl⟩
  have hx0 : ContextLine.mk
        ((List.replicate 2147483650 "" ++ ["// I AM NOT DONE", "", ""]).getD 0 "")
        (0 + 0 + 1) (decide ((0 + 0 : Nat) = 2147483650))
      ∈ (enumerateFrom 0 (List.replicate 2147483650 "" ++ ["// I AM NOT DONE", "", ""])).map
          (fun p => { line := p.2, number := p.1 + 1,
                      important := decide (p.1 = 2147483650) }) :=
    List.mem_map.mpr ⟨_, hpair, rfl⟩
  rw [hactual] at hcontra
  injection hcontra with hlist
  rw [hlist] at hx0
  obtain ⟨j, hjfilter, hgj⟩ := List.mem_map.mp hx0
  have hnum : j + 1 = 0 + 0 + 1 := congrArg ContextLine.number hgj
  have hj0 : j = 0 := by omega
  subst hj0
  have hpred := (List.mem_filter.mp hjfilter).2
  simp only [Bool.and_eq_true, decide_eq_true_eq] at hpred
  unfold CONTEXT at hpred
  omega

/-- C1 (counterexample): with the execute step failing, the prove step
(resp. the prove-and-verify step) is nevertheless invoked by the
orchestrators, contradicting the claim that a downstream step is never run
after an upstream failure. -/
theorem orchestrator_skips_downstream_counterexample :
    ¬ (StepTag.prove ∉ (bb_prove_exercise (Except.error "execution failed") (Except.ok "")).1
       ∧ StepTag.proveVerify ∉
          (bb_prove_verify_exercise (Except.error "execution failed") (Except.ok "")).1) := by
  intro h
  exact h.1 (by simp [bb_prove_exercise])

/-- C1 (amended): both prove-carrying orchestrators evaluate every step
unconditionally — the prove (resp. prove-and-verify) step is invoked even
when execute fails — but the reported outcome gives the upstream error
priority: when execute fails, the outcome is a failure carrying the
execute error text, whatever the downstream step returned. -/
theorem orchestrator_eager_upstream_priority (e : String) (p : Except String String) :
    bb_prove_exercise (Except.error e) p = ([StepTag.execute, StepTag.prove], Except.error e)
    ∧ bb_prove_verify_exercise (Except.error e) p
        = ([StepTag.execute, StepTag.proveVerify], Except.error e) :=
  ⟨rfl, rfl⟩

/-- C1 (witness): the amended claim at a concrete failing execute step. -/
theorem orchestrator_eager_upstream_priority_witness :
    bb_prove_exercise (Except.error "boom") (Except.ok "")
        = ([StepTag.execute, StepTag.prove], Except.error "boom")
    ∧ bb_prove_verify_exercise (Except.error "boom") (Except.ok "")
        = ([StepTag.execute, StepTag.proveVerify], Except.error "boom") :=
  orchestrator_eager_upstream_priority "boom" (Except.ok "")

/-- C5 (counterexample): a map whose two entries both carry recognized mode
keys decodes successfully (to the variant of the first entry), so decoding
does not require the map to have exactly one recognized key. -/
theorem mode_map_two_keys_counterexample :
    deserialize_mode (Value.map [("execute", Value.map [("inlined", Value.str "a")]),
                                 ("bbprove", Value.map [("inlined", Value.str "b")])])
      = Except.ok (Mode.Execute (TomlFile.Inlined "a"))
    ∧ countRecognizedModeKeys
        (Value.map [("execute", Value.map [("inlined", Value.str "a")]),
                    ("bbprove", Value.map [("inlined", Value.str "b")])]) = 2 :=
  ⟨rfl, rfl⟩

/-- C5 (amended): decoding a map examines only its first entry — the result
equals that for the singleton map of that entry, whatever follows.  A first
key of execute / bbprove / bbverify decodes the corresponding variant from
its payload (e.g. a first entry execute mapped to a table with first key
inlined and a string yields Execute(Inlined(s))), and an unrecognized first
key fails with UnknownModeField. -/
theorem mode_map_first_key_decides (k : String) (v : Value) (rest : List (String × Value)) :
    deserialize_mode (Value.map ((k, v) :: rest)) = deserialize_mode (Value.map [(k, v)])
    ∧ (k ≠ "execute" → k ≠ "bbprove" → k ≠ "bbverify" →
        deserialize_mode (Value.map ((k, v) :: rest))
          = Except.error (DeError.UnknownModeField k))
    ∧ (∀ s, deserialize_mode (Value.map (("execute", Value.map [("inlined", Value.str s)]) :: rest))
          = Except.ok (Mode.Execute (TomlFile.Inlined s))) := by
  refine ⟨rfl, fun h1 h2 h3 => ?_, fun s => ?_⟩
  · simp [deserialize_mode, h1, h2, h3]
  · simp [deserialize_mode, deTomlFile, Except.map]

/-- C5 (witness): the amended claim at a concrete unrecognized first key
and at the concrete execute example. -/
theorem mode_map_first_key_decides_witness :
    deserialize_mode (Value.map [("junk", Value.other)])
      = Except.error (DeError.UnknownModeField "junk")
    ∧ deserialize_mode (Value.map [("execute", Value.map [("inlined", Value.str "a = 1")])])
        = Except.ok (Mode.Execute (TomlFile.Inlined "a = 1")) :=
  ⟨(mode_map_first_key_decides "junk" Value.other []).2.1
      (by decide) (by decide) (by decide),
   (mode_map_first_key_decides "execute" Value.other []).2.2 "a = 1"⟩

/-- C6: decoding the bare string test yields Test, build yields Build, and
any other bare string fails with UnknownModeTag. -/
theorem mode_string_decoding (s : String) :
    deserialize_mode (Value.str "test") = Except.ok Mode.Test
    ∧ deserialize_mode (Value.str "build") = Except.ok Mode.Build
    ∧ (s ≠ "test" → s ≠ "build" →
        deserialize_mode (Value.str s) = Except.error (DeError.UnknownModeTag s)) := by
  refine ⟨rfl, rfl, fun h1 h2 => ?_⟩
  simp [deserialize_mode, h1, h2]

/-- C6 (witness): the bare string execute is rejected with UnknownModeTag. -/
theorem mode_string_decoding_witness :
    deserialize_mode (Value.str "execute") = Except.error (DeError.UnknownModeTag "execute") :=
  (mode_string_decoding "execute").2.2 (by decide) (by decide)

/-- C7: resolving an Inlined payload returns the held text verbatim and
never consults the file system (the result is the same under any file
oracle), while resolving a Path payload whose file cannot be opened or read
ends in the fatal, never-retried outcome (the source panics there; the spec
names this failure ConfigReadError). -/
theorem tomlfile_resolve (fs fs2 : String → Option String) (s p : String) :
    TomlFile.to_string fs (TomlFile.Inlined s) = RunResult.ok s
    ∧ TomlFile.to_string fs (TomlFile.Inlined s) = TomlFile.to_string fs2 (TomlFile.Inlined s)
    ∧ (fs p = none →
        TomlFile.to_string fs (TomlFile.Path p)
          = RunResult.panic ("We were unable to open the toml file! " ++ p)) := by
  refine ⟨rfl, rfl, fun h => ?_⟩
  simp [TomlFile.to_string, h]

/-- C7 (witness): resolution at a concrete inline payload and at a concrete
unreadable path, under the empty file system. -/
theorem tomlfile_resolve_witness :
    TomlFile.to_string (fun _ => none) (TomlFile.Inlined "a = 1") = RunResult.ok "a = 1"
    ∧ TomlFile.to_string (fun _ => none) (TomlFile.Path "missing.toml")
        = RunResult.panic ("We were unable to open the toml file! " ++ "missing.toml") :=
  ⟨(tomlfile_resolve (fun _ => none) (fun _ => none) "a = 1" "missing.toml").1,
   (tomlfile_resolve (fun _ => none) (fun _ => none) "a = 1" "missing.toml").2.2 rfl⟩

/-- C9: when the exercise source file cannot be opened or read, the
completion check panics — the distinguished aborting outcome — and in
particular never returns a Done or Pending state; looks_done panics the
same way. -/
theorem state_panics_on_unreadable_file (fs : String → Option String) (e : Exercise)
    (h : fs e.path = none) :
    e.state fs = RunResult.panic ("We were unable to open the exercise file! " ++ e.path)
    ∧ e.looks_done fs = RunResult.panic ("We were unable to open the exercise file! " ++ e.path)
    ∧ (∀ s : State, e.state fs ≠ RunResult.ok s) := by
  have h1 : e.state fs
      = RunResult.panic ("We were unable to open the exercise file! " ++ e.path) := by
    simp [Exercise.state, h]
  refine ⟨h1, ?_, fun s hs => by simp [h1] at hs⟩
  simp [Exercise.looks_done, h1]

/-- C9 (witness): the completion check at a concrete exercise under the
empty file system. -/
theorem state_panics_on_unreadable_file_witness :
    Exercise.state (fun _ => none)
        { name := "ex1", path := "exercises/ex1.nr", mode := Mode.Build, hint := "" }
      = RunResult.panic ("We were unable to open the exercise file! " ++ "exercises/ex1.nr") :=
  (state_panics_on_unreadable_file (fun _ => none)
      { name := "ex1", path := "exercises/ex1.nr", mode := Mode.Build, hint := "" } rfl).1

/-- C8: the prove step issues exactly the command
prove -b artifact -w witness -o proof (paths built from the fixed working
area runner_crate/target and the exercise name) and on a non-zero exit
returns a failure carrying the captured standard-error text; the verify
step issues write_vk -b artifact -o vk and then verify -k vk -p proof and
returns a failure whenever either command exits non-zero. -/
theorem bb_command_shapes (run : Cmd → Except String CmdOut) (n : String) :
    (bb_prove run n).1
      = [⟨"bb", ["prove", "-b", "runner_crate/target/runner_crate.json",
                 "-w", "runner_crate/target/" ++ n ++ ".gz",
                 "-o", "runner_crate/target/proof-" ++ n]⟩]
    ∧ (∀ out, run ⟨"bb", ["prove", "-b", "runner_crate/target/runner_crate.json",
                          "-w", "runner_crate/target/" ++ n ++ ".gz",
                          "-o", "runner_crate/target/proof-" ++ n]⟩ = Except.ok out →
        out.success = false →
        (bb_prove run n).2 = Except.error ("Failed to prove the program: " ++ out.stderr))
    ∧ (∀ o1 o2,
        run ⟨"bb", ["write_vk", "-b", "runner_crate/target/runner_crate.json",
                    "-o", "runner_crate/target/vk-" ++ n]⟩ = Except.ok o1 →
        run ⟨"bb", ["verify", "-k", "runner_crate/target/vk-" ++ n,
                    "-p", "runner_crate/target/proof-" ++ n]⟩ = Except.ok o2 →
        (bb_verify run n).1
          = [⟨"bb", ["write_vk", "-b", "runner_crate/target/runner_crate.json",
                     "-o", "runner_crate/target/vk-" ++ n]⟩,
             ⟨"bb", ["verify", "-k", "runner_crate/target/vk-" ++ n,
                     "-p", "runner_crate/target/proof-" ++ n]⟩]
          ∧ ((o1.success = false ∨ o2.success = false) →
              ∃ msg, (bb_verify run n).2 = Except.error msg)) := by
  refine ⟨?_, fun out hrun hfail => ?_, fun o1 o2 h1 h2 => ?_⟩
  · rcases hr : run ⟨"bb", ["prove", "-b", "runner_crate/target/runner_crate.json",
                            "-w", "runner_crate/target/" ++ n ++ ".gz",
                            "-o", "runner_crate/target/proof-" ++ n]⟩ with e | o <;>
      simp [bb_prove, hr]
  · simp [bb_prove, hrun, hfail]
  · refine ⟨by simp [bb_verify, h1, h2], fun hf => ?_⟩
    rcases hf with hf | hf
    · exact ⟨"Failed to verify the program: " ++ o1.stderr, by simp [bb_verify, h1, h2, hf]⟩
    · rcases hs1 : o1.success with h1s | h1s
      · exact ⟨"Failed to verify the program: " ++ o1.stderr, by simp [bb_verify, h1, h2, hs1]⟩
      · exact ⟨"Failed to verify the program: " ++ o2.stderr, by simp [bb_verify, h1, h2, hs1, hf]⟩

/-- C8 (witness): under a process oracle whose every command exits non-zero
with standard error boom, the prove step fails carrying boom and the verify
step fails. -/
theorem bb_command_shapes_witness :
    (bb_prove (fun _ => Except.ok (CmdOut.mk false "boom")) "ex").2
      = Except.error ("Failed to prove the program: " ++ "boom")
    ∧ (∃ msg, (bb_verify (fun _ => Except.ok (CmdOut.mk false "boom")) "ex").2
        = Except.error msg) :=
  ⟨(bb_command_shapes (fun _ => Except.ok (CmdOut.mk false "boom")) "ex").2.1
      (CmdOut.mk false "boom") rfl rfl,
   ((bb_command_shapes (fun _ => Except.ok (CmdOut.mk false "boom")) "ex").2.2
      (CmdOut.mk false "boom") (CmdOut.mk false "boom") rfl rfl).2 (Or.inl rfl)⟩

/-- C10: reset returns Ok exactly when the git stash process can be
spawned; the spawned child's exit status is never consulted, so a stash
that runs but exits unsuccessfully still reports success. -/
theorem reset_spawn_only (spawn : Cmd → Except String Child) (e : Exercise) :
    (∀ c, spawn ⟨"git", ["stash", "--", e.path]⟩ = Except.ok c → reset spawn e = Except.ok ())
    ∧ (∀ msg, spawn ⟨"git", ["stash", "--", e.path]⟩ = Except.error msg →
        reset spawn e = Except.error ())
    ∧ (∀ c, spawn ⟨"git", ["stash", "--", e.path]⟩ = Except.ok c → c.exitSuccess = false →
        reset spawn e = Except.ok ()) := by
  refine ⟨fun c hc => ?_, fun msg hmsg => ?_, fun c hc _ => ?_⟩
  · simp [reset, hc]
  · simp [reset, hmsg]
  · simp [reset, hc]

/-- C10 (witness): under a spawn oracle whose child runs but exits
unsuccessfully, reset still reports success. -/
theorem reset_spawn_only_witness :
    reset (fun _ => Except.ok (Child.mk false))
        { name := "ex1", path := "exercises/ex1.nr", mode := Mode.Build, hint := "" }
      = Except.ok () :=
  (reset_spawn_only (fun _ => Except.ok (Child.mk false))
      { name := "ex1", path := "exercises/ex1.nr", mode := Mode.Build, hint := "" }).2.2
    (Child.mk false) rfl rfl
